import Mathlib

/-!
Verification of the response-shaping and size-management pipeline of the
lens-mcp server (`src/index.ts`).

Modelling conventions for the shallow embedding of the TypeScript source:

* JSON-like runtime values are modelled by `JsValue`; arrays and objects
  carry their elements through the mutually inductive `JsArr` / `JsObj`
  (cons-lists), so that every function on them is structurally recursive
  and hence computable by the kernel.  Numbers are modelled as `Int`
  (every numeric value relevant to the claims is an integer).
* JavaScript `undefined` is identified with key absence: a property whose
  value is `undefined` is JSON-invisible, and the optimizer code never
  distinguishes an `undefined`-valued property from a missing one (its
  walker skips `undefined` values, `JSON.stringify` omits them).  Hence an
  object-literal field written with a possibly-`undefined` expression is
  embedded as a field that is present exactly when the expression is
  defined.
* Property access `o.k` is `jsGet o "k"`, returning `none` for JavaScript
  `undefined` (including access on primitives, which never throws).
* Object key order is insertion order, as in JavaScript for the
  non-integer-like string keys used throughout this code.
* A sparse-array hole produced by skipping an element while copying an
  array through `Object.entries` is modelled as an explicit `null` element
  (holes and `null` serialize identically and are both skipped by the
  walker, which enumerates own properties only); trailing holes, which do
  not extend the array length, are trimmed.
* Strings are Lean `String`s; `length` counts characters (the source's
  UTF-16 code-unit count agrees on all material in the claims).
-/

set_option maxRecDepth 8000

namespace LensMcp

mutual

inductive JsValue where
  | null : JsValue
  | bool : Bool → JsValue
  | num : Int → JsValue
  | str : String → JsValue
  | arr : JsArr → JsValue
  | obj : JsObj → JsValue

inductive JsArr where
  | nil : JsArr
  | cons : JsValue → JsArr → JsArr

inductive JsObj where
  | nil : JsObj
  | cons : String → JsValue → JsObj → JsObj

end

open JsValue

/-- Readable array literals. -/
def JsArr.ofList : List JsValue → JsArr
  | [] => .nil
  | v :: rest => .cons v (JsArr.ofList rest)

/-- Readable object literals. -/
def JsObj.ofList : List (String × JsValue) → JsObj
  | [] => .nil
  | (k, v) :: rest => .cons k v (JsObj.ofList rest)

/-- Array literal helper. -/
def jarr (l : List JsValue) : JsValue := .arr (JsArr.ofList l)

/-- Object literal helper. -/
def jobj (l : List (String × JsValue)) : JsValue := .obj (JsObj.ofList l)

/-- `array.length`. -/
def JsArr.length : JsArr → Nat
  | .nil => 0
  | .cons _ rest => 1 + JsArr.length rest

/-- Number of fields of an object. -/
def JsObj.length : JsObj → Nat
  | .nil => 0
  | .cons _ _ rest => 1 + JsObj.length rest

/-- Concatenation of field lists (used to assemble object literals whose
fields are conditionally present). -/
def JsObj.append : JsObj → JsObj → JsObj
  | .nil, b => b
  | .cons k v rest, b => .cons k v (JsObj.append rest b)

instance : Append JsObj := ⟨JsObj.append⟩

/-- First-match field lookup: JavaScript property lookup on an object
(objects have unique keys, so first-match is exact). -/
def JsObj.lookup : JsObj → String → Option JsValue
  | .nil, _ => none
  | .cons k v rest, key => if k = key then some v else JsObj.lookup rest key

/-- JavaScript property access `o.k`: `none` is `undefined`.  Access on a
primitive or an array by these (non-index, non-method) names yields
`undefined`. -/
def jsGet (v : JsValue) (key : String) : Option JsValue :=
  match v with
  | .obj fields => fields.lookup key
  | _ => none

/-- `o.a?.b` / `o.a && o.a.b`-style two-step access. -/
def jsGet2 (v : JsValue) (k1 k2 : String) : Option JsValue :=
  match jsGet v k1 with
  | some w => jsGet w k2
  | none => none

/-- JavaScript truthiness of a value. -/
def jsTruthy : JsValue → Bool
  | .null => false
  | .bool b => b
  | .num n => n != 0
  | .str s => s != ""
  | .arr _ => true
  | .obj _ => true

/-- Truthiness of a possibly-`undefined` expression. -/
def truthy : Option JsValue → Bool
  | none => false
  | some v => jsTruthy v

/-- The key list of an object. -/
def objKeys : JsObj → List String
  | .nil => []
  | .cons k _ rest => k :: objKeys rest

/-- `Object.keys` (only ever applied to objects in the embedded code). -/
def jsKeys : JsValue → List String
  | .obj fields => objKeys fields
  | _ => []

/-- A field that is present exactly when the (possibly `undefined`)
expression is defined; see the `undefined` modelling convention above. -/
def optField (k : String) : Option JsValue → JsObj
  | some v => .cons k v .nil
  | none => .nil

/-- Boolean list-prefix test (for the string-search primitives below). -/
def listStartsWith : List Char → List Char → Bool
  | [], _ => true
  | _ :: _, [] => false
  | a :: as, b :: bs => a == b && listStartsWith as bs

/-- Boolean contiguous-occurrence test: does `needle` occur in `hay`? -/
def listOccursIn (needle : List Char) : List Char → Bool
  | [] => listStartsWith needle []
  | c :: rest => listStartsWith needle (c :: rest) || listOccursIn needle rest

/-- JavaScript `String.prototype.includes`. -/
def strIncludes (s sub : String) : Bool := listOccursIn sub.data s.data

/-- JavaScript `String.prototype.toLowerCase` (ASCII; all keys involved
are ASCII). -/
def toLowerStr (s : String) : String := String.mk (s.data.map Char.toLower)

mutual

/-- Structural equality of values; models JavaScript `===` on the values
it is applied to in this code (post/root ids, which are primitives). -/
def beqV : JsValue → JsValue → Bool
  | .null, .null => true
  | .bool a, .bool b => a == b
  | .num a, .num b => a == b
  | .str a, .str b => a == b
  | .arr a, .arr b => beqA a b
  | .obj a, .obj b => beqO a b
  | _, _ => false

/-- Elementwise equality of arrays. -/
def beqA : JsArr → JsArr → Bool
  | .nil, .nil => true
  | .cons a as, .cons b bs => beqV a b && beqA as bs
  | _, _ => false

/-- Fieldwise equality of objects. -/
def beqO : JsObj → JsObj → Bool
  | .nil, .nil => true
  | .cons k v rest, .cons k' v' rest' => k == k' && beqV v v' && beqO rest rest'
  | _, _ => false

end

/-- `a !== b` for possibly-`undefined` operands (`undefined === undefined`
holds in JavaScript). -/
def optStrictNe (a b : Option JsValue) : Bool :=
  match a, b with
  | none, none => false
  | some x, some y => !beqV x y
  | _, _ => true

/-- `item.__typename === 'name'`. -/
def typenameIs (v : JsValue) (name : String) : Bool :=
  match jsGet v "__typename" with
  | some (.str t) => t == name
  | _ => false

mutual

/-- Structural size of a value (for strong-induction measures). -/
def sizeV : JsValue → Nat
  | .arr a => 1 + sizeA a
  | .obj o => 1 + sizeO o
  | _ => 1

/-- Structural size of an array. -/
def sizeA : JsArr → Nat
  | .nil => 0
  | .cons v rest => 1 + sizeV v + sizeA rest

/-- Structural size of an object. -/
def sizeO : JsObj → Nat
  | .nil => 0
  | .cons _ v rest => 1 + sizeV v + sizeO rest

end

theorem sizeV_pos (v : JsValue) : 1 ≤ sizeV v := by
  cases v <;> simp [sizeV]

theorem beq_lawful (n : Nat) :
    (∀ a b, sizeV a ≤ n → (beqV a b = true ↔ a = b)) ∧
    (∀ x y, sizeA x ≤ n → (beqA x y = true ↔ x = y)) ∧
    (∀ p q, sizeO p ≤ n → (beqO p q = true ↔ p = q)) := by
  induction n with
  | zero =>
    refine ⟨fun a b h => absurd h (by have := sizeV_pos a; omega), fun x y h => ?_,
      fun p q h => ?_⟩
    · cases x with
      | nil => cases y <;> simp [beqA]
      | cons v rest => exact absurd h (by simp [sizeA])
    · cases p with
      | nil => cases q <;> simp [beqO]
      | cons k v rest => exact absurd h (by simp [sizeO])
  | succ n ih =>
    obtain ⟨ihV, ihA, ihO⟩ := ih
    refine ⟨fun a b h => ?_, fun x y h => ?_, fun p q h => ?_⟩
    · cases a <;> cases b <;> simp [beqV]
      case arr.arr xa xb =>
        rw [ihA xa xb (by simp [sizeV] at h; omega)]
      case obj.obj oa ob =>
        rw [ihO oa ob (by simp [sizeV] at h; omega)]
    · cases x with
      | nil => cases y <;> simp [beqA]
      | cons v rest =>
        cases y with
        | nil => simp [beqA]
        | cons w rest' =>
          simp [beqA, sizeA] at h ⊢
          rw [ihV v w (by omega), ihA rest rest' (by omega)]
    · cases p with
      | nil => cases q <;> simp [beqO]
      | cons k v rest =>
        cases q with
        | nil => simp [beqO]
        | cons k' w rest' =>
          simp [beqO, sizeO] at h ⊢
          rw [ihV v w (by omega), ihO rest rest' (by omega)]
          tauto

theorem beqV_iff (a b : JsValue) : beqV a b = true ↔ a = b :=
  (beq_lawful (sizeV a)).1 a b le_rfl

theorem beqA_iff (a b : JsArr) : beqA a b = true ↔ a = b :=
  (beq_lawful (sizeA a)).2.1 a b le_rfl

theorem beqO_iff (a b : JsObj) : beqO a b = true ↔ a = b :=
  (beq_lawful (sizeO a)).2.2 a b le_rfl

instance : DecidableEq JsValue := fun a b => decidable_of_iff _ (beqV_iff a b)

instance : DecidableEq JsArr := fun a b => decidable_of_iff _ (beqA_iff a b)

instance : DecidableEq JsObj := fun a b => decidable_of_iff _ (beqO_iff a b)

/-- Decimal digit character. -/
def digitCh (d : Nat) : Char := Char.ofNat (48 + d)

/-- Lowercase hex digit character. -/
def hexCh (d : Nat) : Char := if d < 10 then digitCh d else Char.ofNat (87 + d)

/-- Decimal representation of a natural number (fuelled so that it is
structurally recursive; `natStr` supplies adequate fuel).  Models the
JavaScript decimal rendering of the integers interpolated into the
template strings of the source. -/
def natStrAux : Nat → Nat → List Char
  | 0, _ => []
  | f + 1, n => if n < 10 then [digitCh n] else natStrAux f (n / 10) ++ [digitCh (n % 10)]

/-- Decimal representation of a natural number. -/
def natStr (n : Nat) : String := String.mk (natStrAux (n + 1) n)

/-- Decimal representation of an integer (JavaScript number rendering for
the integral values in scope). -/
def intStr (i : Int) : String :=
  if i < 0 then "-" ++ natStr i.natAbs else natStr i.natAbs

/-- JSON string escaping as performed by `JSON.stringify`. -/
def escChar (c : Char) : List Char :=
  if c = Char.ofNat 34 then [Char.ofNat 92, Char.ofNat 34]
  else if c = Char.ofNat 92 then [Char.ofNat 92, Char.ofNat 92]
  else if c = Char.ofNat 10 then [Char.ofNat 92, 'n']
  else if c = Char.ofNat 13 then [Char.ofNat 92, 'r']
  else if c = Char.ofNat 9 then [Char.ofNat 92, 't']
  else if c = Char.ofNat 8 then [Char.ofNat 92, 'b']
  else if c = Char.ofNat 12 then [Char.ofNat 92, 'f']
  else if c.toNat < 32 then
    [Char.ofNat 92, 'u', '0', '0', hexCh (c.toNat / 16), hexCh (c.toNat % 16)]
  else [c]

/-- A JSON-quoted string as produced by `JSON.stringify`. -/
def quoteStr (s : String) : String :=
  String.mk (Char.ofNat 34 :: (s.data.map escChar).flatten ++ [Char.ofNat 34])

/-- Opening / closing brace strings for the serializers. -/
def obrace : String := String.mk [Char.ofNat 123]

/-- Closing brace. -/
def cbrace : String := String.mk [Char.ofNat 125]

mutual

/-- `JSON.stringify(v)` (compact form, no indentation): used by the
optimizer's rough size check and as the serialized-size measure. -/
def jsonStringify : JsValue → String
  | .null => "null"
  | .bool b => if b then "true" else "false"
  | .num n => intStr n
  | .str s => quoteStr s
  | .arr a => "[" ++ jsonStringifyArr a ++ "]"
  | .obj o => obrace ++ jsonStringifyObj o ++ cbrace

/-- Comma-joined compact serialization of array elements. -/
def jsonStringifyArr : JsArr → String
  | .nil => ""
  | .cons v .nil => jsonStringify v
  | .cons v (.cons w rest) => jsonStringify v ++ "," ++ jsonStringifyArr (.cons w rest)

/-- Comma-joined compact serialization of object fields. -/
def jsonStringifyObj : JsObj → String
  | .nil => ""
  | .cons k v .nil => quoteStr k ++ ":" ++ jsonStringify v
  | .cons k v (.cons k2 w rest) =>
      quoteStr k ++ ":" ++ jsonStringify v ++ "," ++ jsonStringifyObj (.cons k2 w rest)

end

/-- Indentation blank run. -/
def spacesStr (n : Nat) : String := String.mk (List.replicate n ' ')

mutual

/-- `JSON.stringify(v, null, 2)`: the pretty-printed serialization used by
`formatResponse` for the `detailed` and `raw` modes.  `ind` is the current
indentation of the surrounding context. -/
def prettyStringify : Nat → JsValue → String
  | _, .null => "null"
  | _, .bool b => if b then "true" else "false"
  | _, .num n => intStr n
  | _, .str s => quoteStr s
  | _, .arr .nil => "[]"
  | ind, .arr (.cons v rest) =>
      "[\n" ++ prettyArrItems (ind + 2) (.cons v rest) ++ "\n" ++ spacesStr ind ++ "]"
  | _, .obj .nil => obrace ++ cbrace
  | ind, .obj (.cons k v rest) =>
      obrace ++ "\n" ++ prettyObjItems (ind + 2) (.cons k v rest) ++ "\n" ++ spacesStr ind ++ cbrace

/-- Pretty-printed array elements, one per line. -/
def prettyArrItems : Nat → JsArr → String
  | _, .nil => ""
  | ind, .cons v .nil => spacesStr ind ++ prettyStringify ind v
  | ind, .cons v (.cons w rest) =>
      spacesStr ind ++ prettyStringify ind v ++ ",\n" ++ prettyArrItems ind (.cons w rest)

/-- Pretty-printed object fields, one per line. -/
def prettyObjItems : Nat → JsObj → String
  | _, .nil => ""
  | ind, .cons k v .nil => spacesStr ind ++ quoteStr k ++ ": " ++ prettyStringify ind v
  | ind, .cons k v (.cons k2 w rest) =>
      spacesStr ind ++ quoteStr k ++ ": " ++ prettyStringify ind v ++ ",\n" ++
        prettyObjItems ind (.cons k2 w rest)

end

/-- `DEFAULT_LIMITS` (src/index.ts:1129-1132). -/
structure DefaultLimits where
  maxTokens : Nat
  maxItems : Int

/-- The configured limits. -/
def DEFAULT_LIMITS : DefaultLimits := ⟨25000, 50⟩

/-- Result of `checkTokenLimit`. -/
structure TokenCheckResult where
  isValid : Bool
  tokens : Nat
  suggestion : Option String

/-- `checkTokenLimit` (src/index.ts:1404-1423).  The Size Estimator:
`tokens = Math.ceil(text.length / 4)` is `(length + 3) / 4` in `Nat`
arithmetic; empty or non-string input is accepted with zero tokens. -/
def checkTokenLimit (text : JsValue) (maxTokens : Nat) : TokenCheckResult :=
  match text with
  | .str s =>
    if s = "" then ⟨true, 0, none⟩
    else
      let tokens := (s.length + 3) / 4
      if tokens ≤ maxTokens then ⟨true, tokens, none⟩
      else
        ⟨false, tokens,
          some ("Response size (" ++ natStr tokens ++ " tokens) exceeds limit (" ++
            natStr maxTokens ++ "). Consider using:\n\u2022 show=\"concise\" for summary only\n\u2022 Pagination with cursor parameter\n\u2022 Narrower include parameters")⟩
  | _ => ⟨true, 0, none⟩

/-- The `CallToolResult` payload shape: the single text content item and
the error flag (absent means `false`). -/
structure CallToolResult where
  text : String
  isError : Bool

/-- `createErrorResponse` (src/index.ts:1342-1361).  Note the source
template writes a literal backslash-n pair (`\\n\\n` in the TypeScript
string) before the suggestion, not a newline. -/
def createErrorResponse (toolName message : String) (suggestion : Option String) :
    CallToolResult :=
  let sanitizedMessage :=
    if strIncludes message "ENOTFOUND" then "Network connection failed" else message
  let errorText := "\u274c Error in " ++ toolName ++ ": " ++ sanitizedMessage
  let errorText :=
    match suggestion with
    | some s => errorText ++ "\\n\\n💡 Suggestion: " ++ s
    | none => errorText
  ⟨errorText, true⟩

/-- `generateSummary` (src/index.ts:1792-1804). -/
def generateSummary (data : JsValue) : String :=
  match jsGet data "items" with
  | some (.arr l) =>
      "📊 Found " ++ natStr l.length ++ " items" ++
        (if truthy (jsGet2 data "pageInfo" "hasNext") then " (more available)" else "") ++
        ". Use format=\"detailed\" for complete data."
  | _ =>
      if truthy (jsGet data "account") || truthy (jsGet data "username") ||
          truthy (jsGet data "address") then
        "👤 Profile data retrieved. Use format=\"detailed\" for complete information."
      else
        "\u2705 Data retrieved successfully. Use format=\"detailed\" for complete information."

/-- `getPostType` (src/index.ts:1373-1387). -/
def getPostType (post : JsValue) : String :=
  if truthy (jsGet post "commentOn") && truthy (jsGet2 post "commentOn" "id") then "comment"
  else if truthy (jsGet post "quoteOf") && truthy (jsGet2 post "quoteOf" "id") then "quote"
  else if truthy (jsGet post "root") && truthy (jsGet2 post "root" "id") &&
      optStrictNe (jsGet2 post "root" "id") (jsGet post "id") then "mirror"
  else "post"

/-- Three-step property access `o.a.b?.c`. -/
def jsGet3 (v : JsValue) (k1 k2 k3 : String) : Option JsValue :=
  match jsGet2 v k1 k2 with
  | some w => jsGet w k3
  | none => none

/-- `optimizePostStructure` (src/index.ts:1717-1757).  Object-literal
fields whose defining expression is `undefined` are embedded as absent
(see the header conventions). -/
def optimizePostStructure (post : JsValue) : JsValue :=
  if !jsTruthy post then post
  else
    .obj (
      optField "id" (jsGet post "id") ++
      (if truthy (jsGet post "author") then
        JsObj.cons "author"
          (.obj (optField "address" (jsGet2 post "author" "address") ++
            optField "username" (jsGet3 post "author" "username" "localName"))) .nil
      else .nil) ++
      (let c := jsGet2 post "metadata" "content"
       if truthy c then optField "content" c else .nil) ++
      (if truthy (jsGet post "stats") then
        JsObj.cons "stats"
          (.obj (optField "reactions" (jsGet2 post "stats" "reactions") ++
            optField "mirrors" (jsGet2 post "stats" "mirrors") ++
            optField "comments" (jsGet2 post "stats" "comments") ++
            optField "quotes" (jsGet2 post "stats" "quotes"))) .nil
      else .nil) ++
      (let cid := jsGet2 post "commentOn" "id"
       if truthy cid then optField "commentOn" cid else .nil) ++
      (let qid := jsGet2 post "quoteOf" "id"
       if truthy qid then optField "quoteOf" qid else .nil) ++
      (let rid := jsGet2 post "root" "id"
       if truthy rid && optStrictNe rid (jsGet post "id") then optField "root" rid else .nil) ++
      JsObj.cons "type" (.str (getPostType post)) .nil)

/-- `optimizeAccountStructure` (src/index.ts:1759-1790). -/
def optimizeAccountStructure (account : JsValue) : JsValue :=
  if !jsTruthy account then account
  else
    .obj (
      optField "address" (jsGet account "address") ++
      (if truthy (jsGet account "username") then
        let ln := jsGet2 account "username" "localName"
        optField "username" (if truthy ln then ln else jsGet account "username")
      else .nil) ++
      (if truthy (jsGet account "metadata") then
        let md :=
          optField "name"
            (let n := jsGet2 account "metadata" "name"
             if truthy n then n else none) ++
          optField "bio"
            (let b := jsGet2 account "metadata" "bio"
             if truthy b then b else none)
        if md.length > 0 then JsObj.cons "metadata" (.obj md) .nil else .nil
      else .nil) ++
      (if truthy (jsGet account "stats") then
        JsObj.cons "stats"
          (.obj (optField "followers" (jsGet2 account "stats" "followers") ++
            optField "following" (jsGet2 account "stats" "following") ++
            optField "posts"
              (let p := jsGet2 account "stats" "posts"
               if truthy p then p else jsGet2 account "stats" "publications"))) .nil
      else .nil))

/-- The `redundantFields` denylist of `deepOptimizeStructure`
(src/index.ts:1485-1663), in source order, duplicates included (the
source stores them in a `Set`; only membership matters). -/
def redundantFields : List String :=
  [
    "createdAt", "updatedAt", "__v", "_id", "cursor", "id_str",
    "nodeId", "version", "hash", "blockHash", "blockTimestamp", "logIndex",
    "removed", "snapshotUrl", "contentUri", "rawUri", "optimized", "transformedContent",
    "animatedUrl", "uri", "url", "urls", "link", "links",
    "href", "src", "thumbnail", "preview", "fullUrl", "originalUrl",
    "smallUrl", "mediumUrl", "largeUrl", "txHash", "blockNumber", "logIndex",
    "transactionIndex", "chainId", "contractAddress", "gasUsed", "gasPrice", "effectiveGasPrice",
    "cumulativeGasUsed", "cached", "processed", "normalized", "formatted", "rendered",
    "displayUrls", "theme", "style", "css", "class", "className",
    "color", "background", "rawMetadata", "encryptedMetadata", "signature", "proof",
    "nonce", "collectibleMetadata", "lensMetadata", "internalMetadata", "appMetadata", "publicationMetadata",
    "profileMetadata", "operations", "momoka", "dataAvailabilityProofs", "dataAvailability", "protocol",
    "version", "implementation", "factory", "proxy", "media", "attachments",
    "asset", "assets", "cover", "image", "images", "video",
    "videos", "audio", "files", "documents", "gallery", "gateway",
    "gateways", "ipfsHash", "arweaveId", "ipfs", "arweave", "node",
    "nodes", "endpoint", "endpoints", "rpc", "ws", "indexedAt",
    "publishedOn", "syncedAt", "lastActivityAt", "mirrorId", "collectNftAddress", "collectModule",
    "referenceModule", "pageInfo", "edges", "node", "connection", "connectionType",
    "permissions", "roles", "capabilities", "features", "flags", "hasNext",
    "hasPrev", "next", "prev", "first", "last", "count",
    "total", "type", "kind", "__typename", "entityType", "objectType",
    "dataType", "null", "undefined", "empty", "void", "timestamp",
    "createdAt", "updatedAt", "publishedAt", "modifiedAt", "editedAt", "counters",
    "metrics", "analytics", "tracking", "telemetry"
  ]

/-- `redundantFields.has(key)`. -/
def isRedundantField (k : String) : Bool := redundantFields.contains k

/-- Is a value the `null` value (a skipped slot of a directly walked
array)? -/
def isNullV : JsValue → Bool
  | .null => true
  | _ => false

/-- Drop the trailing `null` holes of a copied array: holes after the last
assigned index do not extend a JavaScript array. -/
def trimTrailingNulls : JsArr → JsArr
  | .nil => .nil
  | .cons v rest =>
    match trimTrailingNulls rest with
    | .nil => if isNullV v then .nil else .cons v .nil
    | r => .cons v r

mutual

/-- Body of the `for (const [key, value] of Object.entries(data))` loop of
`deepOptimizeStructure` (src/index.ts:1665-1698) for one entry: `none`
means the key is skipped (`continue` / not assigned), `some w` means
`optimized[key] = w`.  The source checks, in order: the denylist; null /
undefined / empty-string values; arrays (kept in full, elementwise
optimized, dropped when empty); objects (recursively optimized, dropped
when no keys remain); strings (dropped for short id-like keys); remaining
primitives (kept).  The recursive call `this.deepOptimizeStructure(value,
targetTokens)` on an object value appears here as its own unfolded object
branch `.obj (objEntries fs t)`, which keeps the recursion structural. -/
def entryVal (k : String) (v : JsValue) (t : Nat) : Option JsValue :=
  if isRedundantField k then none
  else
    match v with
    | .null => none
    | .str s =>
      if s = "" then none
      else if !strIncludes (toLowerStr k) "id" || k = "id" || s.length > 10 then some (.str s)
      else none
    | .arr l =>
      let optimizedArray := optItems l
      if optimizedArray.length > 0 then some (.arr optimizedArray) else none
    | .obj fs =>
      let optimizedNested := JsValue.obj (objEntries fs t)
      if (jsKeys optimizedNested).length > 0 then some optimizedNested else none
    | other => some other

/-- The entry loop of `deepOptimizeStructure` over an object: kept entries
in order. -/
def objEntries : JsObj → Nat → JsObj
  | .nil, _ => .nil
  | .cons k v rest, t =>
    match entryVal k v t with
    | some w => JsObj.cons k w (objEntries rest t)
    | none => objEntries rest t

/-- The entry loop of `deepOptimizeStructure` over an array (the source
builds `optimized = []` and assigns `optimized[key]` for the kept index
keys `"0"`, `"1"`, ...): a skipped entry leaves a hole, modelled as
`null`; the caller trims the trailing holes. -/
def arrEntries : Nat → JsArr → Nat → JsArr
  | _, .nil, _ => .nil
  | i, .cons v rest, t =>
    JsArr.cons (match entryVal (natStr i) v t with | some w => w | none => .null)
      (arrEntries (i + 1) rest t)

/-- `value.map((item) => this.optimizeItemStructure(item))`. -/
def optItems : JsArr → JsArr
  | .nil => .nil
  | .cons e rest => JsArr.cons (optimizeItemStructure e) (optItems rest)

/-- `optimizeItemStructure` (src/index.ts:1703-1715): route entities with
a `__typename` of `Post` / `Account` through the corresponding reducer,
everything else (objects and arrays) through the generic
`deepOptimizeStructure(item, 0)` (unfolded here to keep the recursion
structural); non-objects are returned unchanged. -/
def optimizeItemStructure : JsValue → JsValue
  | .obj fs =>
    if typenameIs (.obj fs) "Post" then optimizePostStructure (.obj fs)
    else if typenameIs (.obj fs) "Account" then optimizeAccountStructure (.obj fs)
    else .obj (objEntries fs 0)
  | .arr l => .arr (trimTrailingNulls (arrEntries 0 l 0))
  | v => v

end

/-- `deepOptimizeStructure` (src/index.ts:1479-1701): non-objects are
returned unchanged; objects and arrays are walked entrywise (the
`targetTokens` parameter is threaded through but never read). -/
def deepOptimizeStructure (data : JsValue) (targetTokens : Nat) : JsValue :=
  match data with
  | .arr l => .arr (trimTrailingNulls (arrEntries 0 l targetTokens))
  | .obj fs => .obj (objEntries fs targetTokens)
  | v => v

/-- The rough size check of `optimizeDataForTokens`
(src/index.ts:1468): the string length for strings and the compact
serialization length otherwise. -/
def roughSizeOf (data : JsValue) : Nat :=
  match data with
  | .str s => s.length
  | _ => (jsonStringify data).length

/-- The Structure Optimizer continued: falsy data is returned as-is; data
under `targetTokens * 4` characters is returned unchanged (fast path);
otherwise the deep structural optimization runs. -/
def optimizeDataForTokens (data : JsValue) (targetTokens : Nat) : JsValue :=
  if !jsTruthy data then data
  else
    let roughSize := roughSizeOf data
    if roughSize < targetTokens * 4 then data
    else deepOptimizeStructure data targetTokens

/-- The three response formats. -/
inductive ResponseFormat where
  | concise : ResponseFormat
  | detailed : ResponseFormat
  | raw : ResponseFormat

/-- `summary || this.generateSummary(data)`. -/
def summaryOr (summary : Option String) (data : JsValue) : String :=
  match summary with
  | some s => if s = "" then generateSummary data else s
  | none => generateSummary data

/-- The `switch (format)` of `formatResponse` (src/index.ts:1428-1442)
composing the response text.  Note the source template for `detailed`
writes a literal backslash-n pair between summary and body (`\\n\\n` in
the TypeScript template literal), not newlines. -/
def composeContent (data : JsValue) (format : ResponseFormat) (summary : Option String) :
    String :=
  match format with
  | .concise => summaryOr summary data
  | .detailed =>
      summaryOr summary data ++ "\\n\\n" ++
        prettyStringify 0 (optimizeDataForTokens data 15000)
  | .raw => prettyStringify 0 data

/-- `formatResponse` (src/index.ts:1425-1462): compose the text, check the
token limit (default budget), and either return the text unchanged (never
truncated) or refuse with `createErrorResponse`. -/
def formatResponse (data : JsValue) (format : ResponseFormat) (summary : Option String) :
    CallToolResult :=
  let content := composeContent data format summary
  let tokenCheck := checkTokenLimit (.str content) DEFAULT_LIMITS.maxTokens
  if tokenCheck.isValid then ⟨content, false⟩
  else
    createErrorResponse "token_limit_exceeded"
      ("Response too large (" ++ natStr tokenCheck.tokens ++ " tokens)")
      tokenCheck.suggestion

/-- The two upstream page-size tiers used by the tool handlers. -/
inductive PageSize where
  | ten : PageSize
  | fifty : PageSize
deriving DecidableEq

/-- Numeric value of a page-size tier. -/
def PageSize.val : PageSize → Int
  | .ten => 10
  | .fifty => 50

/-- The page-size computation shared verbatim by the tool handlers
(src/index.ts:1878, 2070, 2310, 2496):
`Math.min(limit, DEFAULT_LIMITS.maxItems) <= 10 ? PageSize.Ten :
PageSize.Fifty`. -/
def toolPageSize (limit : Int) : PageSize :=
  if min limit DEFAULT_LIMITS.maxItems ≤ 10 then .ten else .fifty

/-- Whitespace skipping for the JSON reader. -/
def skipWs : List Char → List Char
  | [] => []
  | c :: rest =>
    if c = ' ' || c = Char.ofNat 10 || c = Char.ofNat 9 || c = Char.ofNat 13 then skipWs rest
    else c :: rest

/-- Hex digit value. -/
def hexVal (c : Char) : Option Nat :=
  if c.isDigit then some (c.toNat - 48)
  else if 'a' ≤ c && c ≤ 'f' then some (c.toNat - 87)
  else if 'A' ≤ c && c ≤ 'F' then some (c.toNat - 55)
  else none

/-- Read a JSON string body (after the opening quote), handling the
escapes produced by `escChar`; returns the contents and the remainder
after the closing quote. -/
def parseStrBody : List Char → Option (List Char × List Char)
  | [] => none
  | c :: rest =>
    if c = Char.ofNat 34 then some ([], rest)
    else if c = Char.ofNat 92 then
      match rest with
      | [] => none
      | e :: rest2 =>
        let esc : Option Char :=
          if e = 'n' then some (Char.ofNat 10)
          else if e = 't' then some (Char.ofNat 9)
          else if e = 'r' then some (Char.ofNat 13)
          else if e = 'b' then some (Char.ofNat 8)
          else if e = 'f' then some (Char.ofNat 12)
          else if e = '/' then some '/'
          else if e = Char.ofNat 34 then some (Char.ofNat 34)
          else if e = Char.ofNat 92 then some (Char.ofNat 92)
          else none
        match esc with
        | some ch =>
          match parseStrBody rest2 with
          | some (s, r) => some (ch :: s, r)
          | none => none
        | none =>
          if e = 'u' then
            match rest2 with
            | h1 :: h2 :: h3 :: h4 :: rest3 =>
              match hexVal h1, hexVal h2, hexVal h3, hexVal h4 with
              | some a, some b, some c2, some d =>
                match parseStrBody rest3 with
                | some (s, r) => some (Char.ofNat (a * 4096 + b * 256 + c2 * 16 + d) :: s, r)
                | none => none
              | _, _, _, _ => none
            | _ => none
          else none
    else
      match parseStrBody rest with
      | some (s, r) => some (c :: s, r)
      | none => none

/-- Read a run of decimal digits with an accumulator. -/
def parseDigitsAux : List Char → Nat → Nat × List Char
  | [], acc => (acc, [])
  | c :: rest, acc =>
    if c.isDigit then parseDigitsAux rest (acc * 10 + (c.toNat - 48)) else (acc, c :: rest)

/-- Read a JSON integer (the only number shape in scope). -/
def parseNumber : List Char → Option (JsValue × List Char)
  | [] => none
  | c :: rest =>
    if c = '-' then
      match rest with
      | d :: _ =>
        if d.isDigit then
          let p := parseDigitsAux rest 0
          some (.num (-(p.1 : Int)), p.2)
        else none
      | [] => none
    else if c.isDigit then
      let p := parseDigitsAux (c :: rest) 0
      some (.num (p.1 : Int), p.2)
    else none

mutual

/-- Fuelled JSON value reader (the fuel only ensures structural
termination; `jsonParse` supplies adequate fuel and the concrete
round-trip facts are established by evaluation). -/
def parseVal : Nat → List Char → Option (JsValue × List Char)
  | 0, _ => none
  | f + 1, cs =>
    match skipWs cs with
    | [] => none
    | 'n' :: 'u' :: 'l' :: 'l' :: rest => some (.null, rest)
    | 't' :: 'r' :: 'u' :: 'e' :: rest => some (.bool true, rest)
    | 'f' :: 'a' :: 'l' :: 's' :: 'e' :: rest => some (.bool false, rest)
    | c :: rest =>
      if c = Char.ofNat 34 then
        match parseStrBody rest with
        | some (s, r) => some (.str (String.mk s), r)
        | none => none
      else if c = '[' then
        match skipWs rest with
        | ']' :: r2 => some (.arr .nil, r2)
        | _ => parseElems f rest
      else if c = Char.ofNat 123 then
        match skipWs rest with
        | d :: r2 =>
          if d = Char.ofNat 125 then some (.obj .nil, r2)
          else parseFields f rest
        | [] => none
      else parseNumber (c :: rest)

/-- Comma-separated array elements up to the closing bracket. -/
def parseElems : Nat → List Char → Option (JsValue × List Char)
  | 0, _ => none
  | f + 1, cs =>
    match parseVal f cs with
    | some (v, r) =>
      match skipWs r with
      | ',' :: r2 =>
        match parseElems f r2 with
        | some (.arr vs, r3) => some (.arr (.cons v vs), r3)
        | _ => none
      | ']' :: r2 => some (.arr (.cons v .nil), r2)
      | _ => none
    | none => none

/-- Comma-separated object fields up to the closing brace. -/
def parseFields : Nat → List Char → Option (JsValue × List Char)
  | 0, _ => none
  | f + 1, cs =>
    match skipWs cs with
    | c :: rest =>
      if c = Char.ofNat 34 then
        match parseStrBody rest with
        | some (k, r) =>
          match skipWs r with
          | ':' :: r2 =>
            match parseVal f r2 with
            | some (v, r3) =>
              match skipWs r3 with
              | ',' :: r4 =>
                match parseFields f r4 with
                | some (.obj fs, r5) => some (.obj (.cons (String.mk k) v fs), r5)
                | _ => none
              | d :: r4 =>
                if d = Char.ofNat 125 then some (.obj (.cons (String.mk k) v .nil), r4)
                else none
              | [] => none
            | none => none
          | _ => none
        | none => none
      else none
    | [] => none

end

/-- Parse a complete JSON text (used to state the round-trip facts about
the serialized responses). -/
def jsonParse (s : String) : Option JsValue :=
  match parseVal (s.length + 1) s.data with
  | some (v, rest) => if skipWs rest = [] then some v else none
  | none => none

/-- Substring occurrence (used to state the "text contains ..."
properties). -/
def containsStr (hay sub : String) : Prop := ∃ p q, hay = p ++ (sub ++ q)

theorem strLen_append (a b : String) : (a ++ b).length = a.length + b.length := by
  cases a with
  | mk la =>
    cases b with
    | mk lb =>
      show (String.mk (la ++ lb)).length = _
      simp [String.length]

theorem containsStr_len {hay sub : String} (h : containsStr hay sub) :
    sub.length ≤ hay.length := by
  obtain ⟨p, q, rfl⟩ := h
  simp [strLen_append]
  omega

theorem containsStr_tail {t sub : String} (p : String) (h : containsStr t sub) :
    containsStr (p ++ t) sub := by
  obtain ⟨a, b, rfl⟩ := h
  exact ⟨p ++ a, b, by simp [String.append_assoc]⟩

/-- The scenario data of the format-mode contracts: three entities and a
`hasNext` page marker. -/
def c4Data : JsValue :=
  jobj [("items", jarr [jobj [("id", .str "a1")], jobj [("id", .str "a2")],
    jobj [("id", .str "a3")]]),
    ("pageInfo", jobj [("hasNext", .bool true)])]

/-- `data.items.length` when `items` is an array. -/
def itemsLen (v : JsValue) : Option Nat :=
  match jsGet v "items" with
  | some (.arr l) => some l.length
  | _ => none

/-- C4: for `data = {items: [e1, e2, e3], pageInfo: {hasNext: true}}` with
no caller summary and output under budget, `concise` yields a brace-free
text containing the count "3" and a more-results indication; `raw` yields
text that parses back to the same structure with 3 items; `detailed`
yields the concise summary followed by a parseable JSON body. -/
theorem C4_format_mode_contracts :
    ((formatResponse c4Data .concise none).isError = false ∧
      containsStr (formatResponse c4Data .concise none).text "3" ∧
      containsStr (formatResponse c4Data .concise none).text "(more available)" ∧
      Char.ofNat 123 ∉ (formatResponse c4Data .concise none).text.data) ∧
    ((formatResponse c4Data .raw none).isError = false ∧
      jsonParse (formatResponse c4Data .raw none).text = some c4Data ∧
      itemsLen c4Data = some 3) ∧
    ((formatResponse c4Data .detailed none).isError = false ∧
      (formatResponse c4Data .detailed none).text =
        generateSummary c4Data ++ ("\\n\\n" ++ prettyStringify 0 c4Data) ∧
      containsStr (formatResponse c4Data .detailed none).text (generateSummary c4Data) ∧
      jsonParse (prettyStringify 0 c4Data) = some c4Data) := by
  refine ⟨⟨by decide, ⟨"📊 Found ", " items (more available). Use format=\"detailed\" for complete data.", by decide⟩, ⟨"📊 Found 3 items ", ". Use format=\"detailed\" for complete data.", by decide⟩, by decide⟩, ⟨by decide, by decide, by decide⟩, by decide, by decide, ⟨"", "\\n\\n" ++ prettyStringify 0 c4Data, by decide⟩, by decide⟩

/-- C5: the Size Estimator computes `tokens = ceil(length / 4)` and is
within budget exactly when `tokens ≤ budget` (default 25000); empty or
non-string input yields zero tokens and is within budget. -/
theorem C5_size_estimator :
    (∀ (s : String) (budget : Nat),
      (checkTokenLimit (.str s) budget).tokens = (s.length + 3) / 4 ∧
      ((checkTokenLimit (.str s) budget).isValid = true ↔ (s.length + 3) / 4 ≤ budget)) ∧
    (∀ budget, checkTokenLimit .null budget = ⟨true, 0, none⟩) ∧
    (∀ budget b, checkTokenLimit (.bool b) budget = ⟨true, 0, none⟩) ∧
    (∀ budget n, checkTokenLimit (.num n) budget = ⟨true, 0, none⟩) ∧
    (∀ budget a, checkTokenLimit (.arr a) budget = ⟨true, 0, none⟩) ∧
    (∀ budget o, checkTokenLimit (.obj o) budget = ⟨true, 0, none⟩) ∧
    (∀ budget, checkTokenLimit (.str "") budget = ⟨true, 0, none⟩) ∧
    DEFAULT_LIMITS.maxTokens = 25000 := by
  refine ⟨fun s budget => ?_, fun _ => rfl, fun _ _ => rfl, fun _ _ => rfl,
    fun _ _ => rfl, fun _ _ => rfl, fun _ => rfl, rfl⟩
  by_cases hs : s = ""
  · subst hs
    simp [checkTokenLimit]
  · by_cases ht : (s.length + 3) / 4 ≤ budget <;>
      simp [checkTokenLimit, hs, ht]

/-- Post entity of the reduction scenario. -/
def c6Post : JsValue :=
  jobj [("id", .str "p1"), ("commentOn", jobj [("id", .str "p0")]),
    ("metadata", jobj [("content", .str "hi")]),
    ("stats", jobj [("reactions", .num 3)])]

/-- Expected reduction of `c6Post`. -/
def c6Expected : JsValue :=
  jobj [("id", .str "p1"), ("content", .str "hi"),
    ("stats", jobj [("reactions", .num 3)]),
    ("commentOn", .str "p0"), ("type", .str "comment")]

theorem truthy_jsGet2_imp (v : JsValue) (a b : String)
    (h : truthy (jsGet2 v a b) = true) : truthy (jsGet v a) = true := by
  unfold jsGet2 at h
  cases hv : jsGet v a with
  | none => rw [hv] at h; simp [truthy] at h
  | some w =>
    rw [hv] at h
    cases w <;> simp [jsGet, truthy, jsTruthy] at h ⊢

/-- C6: the Entity Reducer derives the post type in the order comment /
quote / mirror / post from the presence (truthiness) of the respective
cross-reference ids, and reduces the scenario entity to exactly the
projected object (author omitted since absent). -/
theorem C6_entity_reduction :
    (∀ post, getPostType post =
      (if truthy (jsGet2 post "commentOn" "id") then "comment"
       else if truthy (jsGet2 post "quoteOf" "id") then "quote"
       else if truthy (jsGet2 post "root" "id") &&
           optStrictNe (jsGet2 post "root" "id") (jsGet post "id") then "mirror"
       else "post")) ∧
    optimizePostStructure c6Post = c6Expected := by
  constructor
  · intro post
    unfold getPostType
    cases hc : truthy (jsGet2 post "commentOn" "id") with
    | true => simp [hc, truthy_jsGet2_imp post _ _ hc]
    | false =>
      cases hq : truthy (jsGet2 post "quoteOf" "id") with
      | true => simp [hc, hq, truthy_jsGet2_imp post _ _ hq]
      | false =>
        cases hr : truthy (jsGet2 post "root" "id") with
        | true => simp [hc, hq, hr, truthy_jsGet2_imp post _ _ hr]
        | false => simp [hc, hq, hr]
  · decide

/-- C7: evaluation of the Structure Optimizer at the failing input
`["", 5]` with budget 0: the empty-string element is skipped, which
leaves a hole serialized as `null`, and the serialized size grows from 6
to 8 characters — refuting size monotonicity.  (The claim's property is
the stated intent — "NEVER truncate arrays - instead compress data
structure" — and this hole-to-`null` growth is a slip of the walker,
which `continue`s over empty values but thereby assigns nothing at that
array index.) -/
theorem C7_size_monotonicity_failing_input :
    (jsonStringify (jarr [.str "", .num 5])).length = 6 ∧
    optimizeDataForTokens (jarr [.str "", .num 5]) 0 = jarr [.null, .num 5] ∧
    (jsonStringify (optimizeDataForTokens (jarr [.str "", .num 5]) 0)).length = 8 := by
  decide

/-- C8: each tool handler clamps the requested bound to
`DEFAULT_LIMITS.maxItems = 50` and rounds it up to a tier: the `Ten` tier
exactly when `min(limit, 50) ≤ 10`, the `Fifty` tier otherwise; the
chosen tier is the least tier at or above the clamped bound. -/
theorem C8_page_size_tiers (limit : Int) :
    (toolPageSize limit = .ten ↔ min limit DEFAULT_LIMITS.maxItems ≤ 10) ∧
    (toolPageSize limit = .fifty ↔ ¬ min limit DEFAULT_LIMITS.maxItems ≤ 10) ∧
    min limit DEFAULT_LIMITS.maxItems ≤ (toolPageSize limit).val ∧
    (∀ p : PageSize, min limit DEFAULT_LIMITS.maxItems ≤ p.val →
      (toolPageSize limit).val ≤ p.val) := by
  have hts : toolPageSize limit = if min limit DEFAULT_LIMITS.maxItems ≤ 10
      then PageSize.ten else PageSize.fifty := rfl
  by_cases h : min limit DEFAULT_LIMITS.maxItems ≤ 10
  · have ht : toolPageSize limit = .ten := by rw [hts, if_pos h]
    refine ⟨by simp [ht, h], by simp [ht, h], ?_, ?_⟩
    · rw [ht]
      exact h
    · intro p hp
      rw [ht]
      cases p <;> simp [PageSize.val]
  · have ht : toolPageSize limit = .fifty := by rw [hts, if_neg h]
    refine ⟨by simp [ht, h], by simp [ht, h], ?_, ?_⟩
    · rw [ht]
      exact min_le_right _ _
    · intro p hp
      rw [ht]
      cases p with
      | ten => exact absurd hp h
      | fifty => exact le_refl _

/-- Witness for C8 at `limit = 30`: the clamped bound 30 exceeds 10, so
the `Fifty` tier is chosen, and it is minimal among admissible tiers. -/
theorem C8_page_size_tiers_witness :
    toolPageSize 30 = .fifty ∧ (toolPageSize 30).val ≤ (PageSize.fifty).val :=
  ⟨(C8_page_size_tiers 30).2.1.mpr (by decide),
    (C8_page_size_tiers 30).2.2.2 .fifty (by decide)⟩

theorem arrSpineInduction {motive : JsArr → Prop} (hnil : motive .nil)
    (hcons : ∀ v rest, motive rest → motive (.cons v rest)) : ∀ l, motive l
  | .nil => hnil
  | .cons v rest => hcons v rest (arrSpineInduction hnil hcons rest)

theorem objSpineInduction {motive : JsObj → Prop} (hnil : motive .nil)
    (hcons : ∀ k v rest, motive rest → motive (.cons k v rest)) : ∀ o, motive o
  | .nil => hnil
  | .cons k v rest => hcons k v rest (objSpineInduction hnil hcons rest)

theorem optItems_length (l : JsArr) : (optItems l).length = l.length := by
  induction l using arrSpineInduction with
  | hnil => rfl
  | hcons v rest ih => simp [optItems, JsArr.length, ih]

theorem JsArr.length_pos (l : JsArr) (h : l ≠ .nil) : 0 < l.length := by
  cases l with
  | nil => exact absurd rfl h
  | cons v rest => simp [JsArr.length]

theorem lookup_none_of_not_mem (o : JsObj) (k : String) (h : k ∉ objKeys o) :
    o.lookup k = none := by
  induction o using objSpineInduction with
  | hnil => rfl
  | hcons k' v rest ih =>
    simp [objKeys] at h
    simp [JsObj.lookup, ih h.2]
    intro he
    exact absurd he.symm h.1

theorem objKeys_objEntries_subset (fs : JsObj) (t : Nat) (k : String)
    (h : k ∈ objKeys (objEntries fs t)) : k ∈ objKeys fs := by
  induction fs using objSpineInduction with
  | hnil => simp [objEntries, objKeys] at h
  | hcons k' v rest ih =>
    rw [objEntries] at h
    cases he : entryVal k' v t with
    | some w =>
      rw [he] at h
      simp [objKeys] at h ⊢
      rcases h with h | h
      · exact Or.inl h
      · exact Or.inr (ih h)
    | none =>
      rw [he] at h
      simp [objKeys]
      exact Or.inr (ih h)

theorem lookup_objEntries_keep (fs : JsObj) (t : Nat) (k : String) (v w : JsValue)
    (hkv : fs.lookup k = some v) (hev : entryVal k v t = some w) :
    (objEntries fs t).lookup k = some w := by
  induction fs using objSpineInduction with
  | hnil => simp [JsObj.lookup] at hkv
  | hcons k' v' rest ih =>
    rw [JsObj.lookup] at hkv
    by_cases hk : k' = k
    · rw [if_pos hk] at hkv
      obtain rfl : v' = v := by injection hkv
      subst hk
      rw [objEntries, hev, JsObj.lookup, if_pos rfl]
    · rw [if_neg hk] at hkv
      rw [objEntries]
      cases he : entryVal k' v' t with
      | some w' => rw [JsObj.lookup, if_neg hk]; exact ih hkv
      | none => exact ih hkv

/-- C1 (amended): for an envelope whose `items` field is a non-empty
array of length N, the Structure Optimizer's output keeps an `items`
array of exactly length N, either unchanged (fast path) or elementwise
optimized in place (so order is preserved and no element is dropped or
sampled).  The amendment excludes N = 0: see
`C1_empty_items_counterexample`. -/
theorem C1_no_element_loss (fields : JsObj) (B : Nat) (l : JsArr)
    (hitems : fields.lookup "items" = some (.arr l)) (hne : l ≠ .nil) :
    ∃ l', jsGet (optimizeDataForTokens (.obj fields) B) "items" = some (.arr l') ∧
      l'.length = l.length ∧ (l' = l ∨ l' = optItems l) := by
  have h1 : optimizeDataForTokens (.obj fields) B =
      (if (jsonStringify (.obj fields)).length < B * 4 then (.obj fields)
       else deepOptimizeStructure (.obj fields) B) := rfl
  by_cases hfast : (jsonStringify (.obj fields)).length < B * 4
  · refine ⟨l, ?_, rfl, Or.inl rfl⟩
    rw [h1, if_pos hfast]
    exact hitems
  · have h2 : optimizeDataForTokens (.obj fields) B = .obj (objEntries fields B) := by
      rw [h1, if_neg hfast]; rfl
    have hev : entryVal "items" (.arr l) B = some (.arr (optItems l)) := by
      have hred : isRedundantField "items" = false := by decide
      have hlen : 0 < (optItems l).length := by
        rw [optItems_length]; exact JsArr.length_pos l hne
      simp [entryVal, hred, hlen]
    refine ⟨optItems l, ?_, optItems_length l, Or.inr rfl⟩
    rw [h2]
    exact lookup_objEntries_keep fields B "items" (.arr l) (.arr (optItems l)) hitems hev

/-- C1 counterexample: with an empty `items` array and budget 0 the deep
path runs and removes the `items` key entirely, so the output has no
`items` array at all (in particular not one of length 0). -/
theorem C1_empty_items_counterexample :
    optimizeDataForTokens (jobj [("items", jarr [])]) 0 = jobj [] ∧
    jsGet (optimizeDataForTokens (jobj [("items", jarr [])]) 0) "items" = none := by
  decide

/-- Witness for C1 at a one-element envelope and budget 0. -/
theorem C1_no_element_loss_witness :
    (JsObj.ofList [("items", jarr [.num 1])]).lookup "items" =
      some (.arr (JsArr.cons (.num 1) .nil)) ∧
    JsArr.cons (.num 1) JsArr.nil ≠ .nil ∧
    ∃ l', jsGet (optimizeDataForTokens (.obj (JsObj.ofList [("items", jarr [.num 1])])) 0)
        "items" = some (.arr l') ∧
      l'.length = (JsArr.cons (.num 1) JsArr.nil).length ∧
      (l' = JsArr.cons (.num 1) JsArr.nil ∨ l' = optItems (JsArr.cons (.num 1) JsArr.nil)) :=
  ⟨by decide, by decide,
    C1_no_element_loss (JsObj.ofList [("items", jarr [.num 1])]) 0
      (JsArr.cons (.num 1) .nil) (by decide) (by decide)⟩

/-- C9: past the fast path, the object walker omits a key entirely when
its value is `null` (or `undefined`, which this embedding identifies with
absence), an empty string, an array whose optimized form has no elements,
or an object whose recursively optimized form has no remaining keys —
whole empty branches disappear. -/
theorem C9_empty_values_omitted (fields : JsObj) (k : String) (v : JsValue) (B : Nat)
    (hnd : (objKeys fields).Nodup)
    (hkv : fields.lookup k = some v)
    (hdrop : v = .null ∨ v = .str "" ∨ (∃ l, v = .arr l ∧ optItems l = .nil) ∨
      (∃ fs, v = .obj fs ∧ jsKeys (deepOptimizeStructure v B) = [])) :
    jsGet (deepOptimizeStructure (.obj fields) B) k = none := by
  have hvnone : entryVal k v B = none := by
    rcases hdrop with rfl | rfl | ⟨l, rfl, hl⟩ | ⟨fs, rfl, hfs⟩
    · simp [entryVal]
    · simp [entryVal]
    · simp [entryVal, hl, JsArr.length]
    · have : objKeys (objEntries fs B) = [] := by
        simpa [deepOptimizeStructure, jsKeys] using hfs
      simp [entryVal, jsKeys, this]
  show (objEntries fields B).lookup k = none
  clear hdrop
  revert hnd hkv
  induction fields using objSpineInduction with
  | hnil => intro _ hkv; simp [JsObj.lookup] at hkv
  | hcons k' v' rest ih =>
    intro hnd hkv
    rw [JsObj.lookup] at hkv
    rw [objKeys] at hnd
    by_cases hk : k' = k
    · rw [if_pos hk] at hkv
      obtain rfl : v' = v := by injection hkv
      subst hk
      rw [objEntries, hvnone]
      refine lookup_none_of_not_mem _ _ fun hmem => ?_
      exact (List.nodup_cons.mp hnd).1 (objKeys_objEntries_subset rest B k' hmem)
    · rw [if_neg hk] at hkv
      have ih' := ih (List.nodup_cons.mp hnd).2 hkv
      rw [objEntries]
      cases he : entryVal k' v' B with
      | some w => rw [JsObj.lookup, if_neg hk]; exact ih'
      | none => exact ih'

/-- Witness for C9: an empty `items` array inside a two-key object is
dropped by the walker. -/
theorem C9_empty_values_omitted_witness :
    (objKeys (JsObj.ofList [("items", jarr []), ("a", .num 1)])).Nodup ∧
    (JsObj.ofList [("items", jarr []), ("a", .num 1)]).lookup "items" = some (jarr []) ∧
    jsGet (deepOptimizeStructure (.obj (JsObj.ofList [("items", jarr []), ("a", .num 1)])) 0)
      "items" = none :=
  ⟨by decide, by decide,
    C9_empty_values_omitted (JsObj.ofList [("items", jarr []), ("a", .num 1)]) "items"
      (jarr []) 0 (by decide) (by decide) (Or.inr (Or.inr (Or.inl ⟨.nil, rfl, by decide⟩)))⟩

/-- C10 counterexample: the key `video` does contain `id` as a substring,
and its 12-character string value exceeds 10 characters, yet it is not
kept verbatim — `video` is in the redundant-field denylist, so the key is
dropped before the string rule is consulted. -/
theorem C10_video_counterexample :
    "abcdefghijkl".length > 10 ∧
    strIncludes (toLowerStr "video") "id" = true ∧
    jsGet (deepOptimizeStructure (jobj [("video", .str "abcdefghijkl")]) 0) "video" = none := by
  decide

/-- C10 (amended): for a key outside the redundant-field denylist with a
non-empty string value, the generic path drops the entry exactly when the
lowercased key contains `id`, the key is not exactly `id`, and the string
has at most 10 characters; otherwise the string is kept verbatim.  (Keys
in the denylist, such as `video`, are always dropped; `width` behaves as
the claim describes.) -/
theorem C10_id_string_rule (k s : String) (B : Nat)
    (hk : isRedundantField k = false) (hs : s ≠ "") :
    (entryVal k (.str s) B = none ↔
      (strIncludes (toLowerStr k) "id" = true ∧ k ≠ "id" ∧ s.length ≤ 10)) ∧
    (entryVal k (.str s) B = some (.str s) ↔
      ¬(strIncludes (toLowerStr k) "id" = true ∧ k ≠ "id" ∧ s.length ≤ 10)) := by
  by_cases h1 : strIncludes (toLowerStr k) "id" = true <;>
    by_cases h2 : k = "id" <;>
      by_cases h3 : s.length ≤ 10 <;>
        simp [entryVal, hk, hs, h1, h2, h3,
          show isRedundantField "id" = false from by decide]

/-- Witness for C10: `width` (not denylisted, contains `id`) loses a
short string but keeps a long one. -/
theorem C10_id_string_rule_witness :
    isRedundantField "width" = false ∧
    entryVal "width" (.str "abc") 0 = none ∧
    entryVal "width" (.str "abcdefghijkl") 0 = some (.str "abcdefghijkl") :=
  ⟨by decide,
    (C10_id_string_rule "width" "abc" 0 (by decide) (by decide)).1.mpr
      (by refine ⟨by decide, by decide, by decide⟩),
    (C10_id_string_rule "width" "abcdefghijkl" 0 (by decide) (by decide)).2.mpr
      (by intro h; exact absurd h.2.2 (by decide))⟩

theorem digitCh_isDigit (d : Nat) (hd : d < 10) : (digitCh d).isDigit = true := by
  interval_cases d <;> decide

theorem natStrAux_digits (f : Nat) :
    ∀ n c, c ∈ natStrAux f n → c.isDigit = true := by
  induction f with
  | zero => intro n c hc; simp [natStrAux] at hc
  | succ f ih =>
    intro n c hc
    by_cases hn : n < 10
    · simp [natStrAux, hn] at hc
      subst hc
      exact digitCh_isDigit n hn
    · simp [natStrAux, hn] at hc
      rcases hc with hc | hc
      · exact ih _ _ hc
      · subst hc
        exact digitCh_isDigit _ (Nat.mod_lt _ (by omega))

theorem natStr_digits (n : Nat) (c : Char) (hc : c ∈ (natStr n).data) :
    c.isDigit = true :=
  natStrAux_digits (n + 1) n c hc

theorem natStrAux_len (f : Nat) : ∀ n, (natStrAux f n).length ≤ n + 1 := by
  induction f with
  | zero => intro n; simp [natStrAux]
  | succ f ih =>
    intro n
    by_cases hn : n < 10
    · simp [natStrAux, hn]
    · simp [natStrAux, hn]
      have := ih (n / 10)
      omega

theorem natStr_len (n : Nat) : (natStr n).length ≤ n + 1 :=
  natStrAux_len (n + 1) n

theorem listStartsWith_mem (needle : List Char) :
    ∀ hay, listStartsWith needle hay = true → ∀ c ∈ needle, c ∈ hay := by
  induction needle with
  | nil => intro hay _ c hc; simp at hc
  | cons a as ih =>
    intro hay h c hc
    cases hay with
    | nil => simp [listStartsWith] at h
    | cons b bs =>
      simp [listStartsWith] at h
      rcases List.mem_cons.mp hc with rfl | hc
      · simp [h.1]
      · exact List.mem_cons_of_mem _ (ih bs h.2 c hc)

theorem listOccursIn_mem (needle : List Char) :
    ∀ hay, listOccursIn needle hay = true → ∀ c ∈ needle, c ∈ hay := by
  intro hay
  induction hay with
  | nil =>
    intro h c hc
    cases needle with
    | nil => simp at hc
    | cons a as => simp [listOccursIn, listStartsWith] at h
  | cons b bs ih =>
    intro h c hc
    rw [listOccursIn, Bool.or_eq_true] at h
    rcases h with h | h
    · exact listStartsWith_mem _ _ h c hc
    · exact List.mem_cons_of_mem _ (ih h c hc)

theorem strData_append (a b : String) : (a ++ b).data = a.data ++ b.data := by
  cases a
  cases b
  rfl

theorem strApp_assoc (a b c : String) : a ++ b ++ c = a ++ (b ++ c) := by
  cases a
  cases b
  cases c
  show String.mk _ = String.mk _
  simp

theorem strIncludes_mem {s sub : String} (h : strIncludes s sub = true) :
    ∀ c ∈ sub.data, c ∈ s.data :=
  listOccursIn_mem sub.data s.data h

/-- C2: whenever the composed response text exceeds the default token
budget, `formatResponse` returns an error-flagged payload whose text names
the measured token count and suggests the concrete remedies (concise
mode, cursor pagination, narrower include parameters), and the oversized
body is not contained in the emitted text at all (no hard truncation). -/
theorem C2_refusal (data : JsValue) (format : ResponseFormat) (summary : Option String)
    (hover : (checkTokenLimit (.str (composeContent data format summary))
      DEFAULT_LIMITS.maxTokens).isValid = false) :
    (formatResponse data format summary).isError = true ∧
    containsStr (formatResponse data format summary).text
      (natStr (checkTokenLimit (.str (composeContent data format summary))
        DEFAULT_LIMITS.maxTokens).tokens) ∧
    containsStr (formatResponse data format summary).text "show=\"concise\"" ∧
    containsStr (formatResponse data format summary).text "Pagination with cursor parameter" ∧
    containsStr (formatResponse data format summary).text "Narrower include parameters" ∧
    DEFAULT_LIMITS.maxTokens <
      (checkTokenLimit (.str (composeContent data format summary))
        DEFAULT_LIMITS.maxTokens).tokens ∧
    ¬ containsStr (formatResponse data format summary).text
      (composeContent data format summary) := by
  set C := composeContent data format summary with hCdef
  have hCne : ¬ C = "" := by
    intro h
    simp [checkTokenLimit, h] at hover
  have htok : ¬ (C.length + 3) / 4 ≤ DEFAULT_LIMITS.maxTokens := by
    intro h
    simp [checkTokenLimit, hCne, h] at hover
  set tok := (C.length + 3) / 4 with htokdef
  have hch : checkTokenLimit (.str C) DEFAULT_LIMITS.maxTokens =
      ⟨false, tok,
        some ("Response size (" ++ natStr tok ++ " tokens) exceeds limit (" ++
          natStr DEFAULT_LIMITS.maxTokens ++
          "). Consider using:\n• show=\"concise\" for summary only\n• Pagination with cursor parameter\n• Narrower include parameters")⟩ := by
    simp [checkTokenLimit, hCne, htok]
  have htoks : (checkTokenLimit (.str C) DEFAULT_LIMITS.maxTokens).tokens = tok := by
    rw [hch]
  have hmsg : strIncludes ("Response too large (" ++ natStr tok ++ " tokens)")
      "ENOTFOUND" = false := by
    by_contra h
    rw [Bool.not_eq_false] at h
    have hE : 'E' ∈ ("Response too large (" ++ natStr tok ++ " tokens)").data :=
      strIncludes_mem h 'E' (by decide)
    rw [strData_append, strData_append] at hE
    rcases List.mem_append.mp hE with hE | hE
    · rcases List.mem_append.mp hE with hE | hE
      · simp at hE
      · have := natStr_digits tok 'E' hE
        simp at this
    · simp at hE
  have hfr : formatResponse data format summary =
      createErrorResponse "token_limit_exceeded"
        ("Response too large (" ++ natStr tok ++ " tokens)")
        (some ("Response size (" ++ natStr tok ++ " tokens) exceeds limit (" ++
          natStr DEFAULT_LIMITS.maxTokens ++
          "). Consider using:\n• show=\"concise\" for summary only\n• Pagination with cursor parameter\n• Narrower include parameters")) := by
    simp only [formatResponse]
    rw [← hCdef, hch]
    simp
  have hiserr : (formatResponse data format summary).isError = true := by
    rw [hfr]
    simp [createErrorResponse]
  have htext : (formatResponse data format summary).text =
      "❌ Error in token_limit_exceeded: " ++
        ("Response too large (" ++
          (natStr tok ++
            (" tokens)\\n\\n💡 Suggestion: " ++
              ("Response size (" ++
                (natStr tok ++
                  (" tokens) exceeds limit (" ++
                    (natStr DEFAULT_LIMITS.maxTokens ++
                      "). Consider using:\n• show=\"concise\" for summary only\n• Pagination with cursor parameter\n• Narrower include parameters"))))))) := by
    rw [hfr]
    simp only [createErrorResponse, hmsg, Bool.false_eq_true, if_false]
    simp [strApp_assoc]
  refine ⟨hiserr, ?_, ?_, ?_, ?_, ?_, ?_⟩
  · rw [htoks, htext]
    exact containsStr_tail _ ⟨"Response too large (", _, rfl⟩
  · rw [htext]
    refine containsStr_tail _ (containsStr_tail _ (containsStr_tail _ (containsStr_tail _
      (containsStr_tail _ (containsStr_tail _ (containsStr_tail _ (containsStr_tail _
        ?_)))))))
    exact ⟨"). Consider using:\n• ",
      " for summary only\n• Pagination with cursor parameter\n• Narrower include parameters",
      by decide⟩
  · rw [htext]
    refine containsStr_tail _ (containsStr_tail _ (containsStr_tail _ (containsStr_tail _
      (containsStr_tail _ (containsStr_tail _ (containsStr_tail _ (containsStr_tail _
        ?_)))))))
    exact ⟨"). Consider using:\n• show=\"concise\" for summary only\n• ",
      "\n• Narrower include parameters", by decide⟩
  · rw [htext]
    refine containsStr_tail _ (containsStr_tail _ (containsStr_tail _ (containsStr_tail _
      (containsStr_tail _ (containsStr_tail _ (containsStr_tail _ (containsStr_tail _
        ?_)))))))
    exact ⟨"). Consider using:\n• show=\"concise\" for summary only\n• Pagination with cursor parameter\n• ",
      "", by decide⟩
  · rw [htoks]
    omega
  · intro hcontains
    have hle : C.length ≤ (formatResponse data format summary).text.length :=
      containsStr_len hcontains
    have hlen := congrArg String.length htext
    simp only [strLen_append] at hlen
    rw [show ("❌ Error in token_limit_exceeded: " : String).length = 33 from by decide,
      show ("Response too large (" : String).length = 20 from by decide,
      show (" tokens)\\n\\n💡 Suggestion: " : String).length = 26 from by decide,
      show ("Response size (" : String).length = 15 from by decide,
      show (" tokens) exceeds limit (" : String).length = 24 from by decide,
      show (natStr DEFAULT_LIMITS.maxTokens).length = 5 from by decide,
      show ("). Consider using:\n• show=\"concise\" for summary only\n• Pagination with cursor parameter\n• Narrower include parameters" : String).length = 117 from by decide]
      at hlen
    have hT := natStr_len tok
    have hdm : tok * 4 ≤ C.length + 3 := by
      rw [htokdef]
      exact Nat.div_mul_le_self _ _
    have hdl : DEFAULT_LIMITS.maxTokens = 25000 := rfl
    rw [hdl] at htok
    omega

/-- A concrete 100001-character summary, used to witness the refusal
path. -/
def bigSummary : String := String.mk (List.replicate 100001 'a')

theorem bigSummary_length : bigSummary.length = 100001 :=
  List.length_replicate 100001 'a' 

theorem bigSummary_ne_empty : bigSummary ≠ "" := by
  intro h
  have := bigSummary_length
  rw [h] at this
  simp [String.length] at this

theorem composeContent_bigSummary :
    composeContent .null .concise (some bigSummary) = bigSummary := by
  simp [composeContent, summaryOr, bigSummary_ne_empty]

/-- Witness for C2: a concise-mode call whose caller-provided summary is
100001 characters (25001 tokens) is refused with an error-flagged
payload. -/
theorem C2_refusal_witness :
    (checkTokenLimit (.str (composeContent .null .concise (some bigSummary)))
      DEFAULT_LIMITS.maxTokens).isValid = false ∧
    (formatResponse .null .concise (some bigSummary)).isError = true ∧
    DEFAULT_LIMITS.maxTokens <
      (checkTokenLimit (.str (composeContent .null .concise (some bigSummary)))
        DEFAULT_LIMITS.maxTokens).tokens := by
  have hover : (checkTokenLimit (.str (composeContent .null .concise (some bigSummary)))
      DEFAULT_LIMITS.maxTokens).isValid = false := by
    rw [composeContent_bigSummary]
    simp [checkTokenLimit, bigSummary_ne_empty, bigSummary_length, DEFAULT_LIMITS]
  have h := C2_refusal .null .concise (some bigSummary) hover
  exact ⟨hover, h.1, h.2.2.2.2.2.1⟩

/-- The Post-tagged envelope on which idempotence fails. -/
def c3Env : JsValue :=
  jobj [("items", jarr [jobj [("__typename", .str "Post"), ("id", .str "p1"),
    ("metadata", jobj [("content", .str "hi")])]])]

/-- C3 counterexample: one pass reduces the Post element to
`{id, content, type}`; a second pass routes the (now untagged) element
through the generic pruner, which drops the freshly inserted `type` key —
so the optimizer is not idempotent. -/
theorem C3_idempotence_counterexample :
    optimizeDataForTokens c3Env 0 =
      jobj [("items", jarr [jobj [("id", .str "p1"), ("content", .str "hi"),
        ("type", .str "post")]])] ∧
    optimizeDataForTokens (optimizeDataForTokens c3Env 0) 0 =
      jobj [("items", jarr [jobj [("id", .str "p1"), ("content", .str "hi")]])] ∧
    optimizeDataForTokens (optimizeDataForTokens c3Env 0) 0 ≠ optimizeDataForTokens c3Env 0 := by
  refine ⟨by decide, by decide, by decide⟩

/-- Is a value `__typename`-tagged as one of the entity shapes that
`optimizeItemStructure` special-cases? -/
def entityTagged (v : JsValue) : Bool :=
  typenameIs v "Post" || typenameIs v "Account"

mutual

/-- No object anywhere in the value carries a `Post`/`Account`
`__typename` tag. -/
def noEntityTagV : JsValue → Bool
  | .obj fs => !entityTagged (.obj fs) && noEntityTagO fs
  | .arr l => noEntityTagA l
  | _ => true

/-- Elementwise `noEntityTagV` over an array. -/
def noEntityTagA : JsArr → Bool
  | .nil => true
  | .cons v rest => noEntityTagV v && noEntityTagA rest

/-- Valuewise `noEntityTagV` over an object's fields. -/
def noEntityTagO : JsObj → Bool
  | .nil => true
  | .cons _ v rest => noEntityTagV v && noEntityTagO rest

end

/-- `pre` is a (positional) prefix of `l`. -/
def arrPrefix : JsArr → JsArr → Prop
  | .nil, _ => True
  | .cons x p, .cons y l => x = y ∧ arrPrefix p l
  | .cons _ _, .nil => False

/-- The induction package threaded through the stability lemmas: every
value of size at most `m` satisfies both idempotence statements. -/
def StableHyp (m : Nat) : Prop :=
  ∀ u, sizeV u ≤ m →
    ((noEntityTagV u = true → ∀ t₁ t₂,
        deepOptimizeStructure (deepOptimizeStructure u t₁) t₂ = deepOptimizeStructure u t₁) ∧
     (noEntityTagV u = true →
        optimizeItemStructure (optimizeItemStructure u) = optimizeItemStructure u))

theorem entryVal_red (k : String) (v : JsValue) (t : Nat)
    (h : isRedundantField k = true) : entryVal k v t = none := by
  unfold entryVal
  rw [if_pos h]

theorem entryVal_null (k : String) (t : Nat) : entryVal k .null t = none := by
  unfold entryVal
  split <;> rfl

theorem objEntries_no_typename (fs : JsObj) (t : Nat) :
    (objEntries fs t).lookup "__typename" = none := by
  induction fs using objSpineInduction with
  | hnil => rfl
  | hcons k v rest ih =>
    rw [objEntries]
    cases he : entryVal k v t with
    | some w =>
      by_cases hk : k = "__typename"
      · subst hk
        rw [entryVal_red _ _ _ (by decide)] at he
        exact absurd he (by simp)
      · rw [JsObj.lookup, if_neg hk]
        exact ih
    | none => exact ih

theorem optItems_stable (m : Nat) (hIH : StableHyp m) :
    ∀ l, sizeA l ≤ m → noEntityTagA l = true → optItems (optItems l) = optItems l := by
  intro l
  induction l using arrSpineInduction with
  | hnil => intro _ _; rfl
  | hcons v rest ih =>
    intro hsz htag
    rw [noEntityTagA, Bool.and_eq_true] at htag
    rw [sizeA] at hsz
    rw [optItems, optItems]
    rw [(hIH v (by omega)).2 htag.1]
    rw [ih (by omega) htag.2]

theorem entryVal_stable (m : Nat) (hIH : StableHyp m) (k : String) (v w : JsValue)
    (t₁ t₂ : Nat) (hv : sizeV v ≤ m) (htag : noEntityTagV v = true)
    (hkept : entryVal k v t₁ = some w) : entryVal k w t₂ = some w := by
  by_cases hred : isRedundantField k = true
  · rw [entryVal_red _ _ _ hred] at hkept
    exact absurd hkept (by simp)
  · rw [Bool.not_eq_true] at hred
    cases v with
    | null => rw [entryVal_null] at hkept; exact absurd hkept (by simp)
    | bool b =>
      simp [entryVal, hred] at hkept
      subst hkept
      simp [entryVal, hred]
    | num n =>
      simp [entryVal, hred] at hkept
      subst hkept
      simp [entryVal, hred]
    | str s =>
      simp [entryVal, hred] at hkept
      obtain ⟨hs, hcond, rfl⟩ := hkept
      rcases hcond with (hcase | hcase) | hcase <;>
        simp [entryVal, hred, hs, hcase, show isRedundantField "id" = false from by decide]
    | arr l =>
      have hsz : sizeA l ≤ m := by rw [sizeV] at hv; omega
      have htagl : noEntityTagA l = true := htag
      simp [entryVal, hred] at hkept
      obtain ⟨hlen, rfl⟩ := hkept
      have hst := optItems_stable m hIH l hsz htagl
      simp [entryVal, hred, hst, hlen]
    | obj fs =>
      have hstab : objEntries (objEntries fs t₁) t₂ = objEntries fs t₁ := by
        have h := (hIH (.obj fs) hv).1 htag t₁ t₂
        have hdo : ∀ (gs : JsObj) (t : Nat),
            deepOptimizeStructure (.obj gs) t = .obj (objEntries gs t) := fun _ _ => rfl
        rw [hdo, hdo] at h
        injection h
      simp [entryVal, hred] at hkept
      obtain ⟨hlen, rfl⟩ := hkept
      simp [entryVal, hred, hstab, hlen]

theorem objEntries_stable (m : Nat) (hIH : StableHyp m) :
    ∀ fs, sizeO fs ≤ m → noEntityTagO fs = true → ∀ t₁ t₂,
      objEntries (objEntries fs t₁) t₂ = objEntries fs t₁ := by
  intro fs
  induction fs using objSpineInduction with
  | hnil => intro _ _ t₁ t₂; rfl
  | hcons k v rest ih =>
    intro hsz htag t₁ t₂
    rw [noEntityTagO, Bool.and_eq_true] at htag
    rw [sizeO] at hsz
    rw [objEntries]
    cases he : entryVal k v t₁ with
    | some w =>
      rw [objEntries]
      rw [entryVal_stable m hIH k v w t₁ t₂ (by omega) htag.1 he]
      rw [ih (by omega) htag.2 t₁ t₂]
    | none => exact ih (by omega) htag.2 t₁ t₂

theorem arrEntries_out_stable (m : Nat) (hIH : StableHyp m) :
    ∀ l i t₁ t₂, sizeA l ≤ m → noEntityTagA l = true →
      arrEntries i (arrEntries i l t₁) t₂ = arrEntries i l t₁ := by
  intro l
  induction l using arrSpineInduction with
  | hnil => intro i t₁ t₂ _ _; rfl
  | hcons v rest ih =>
    intro i t₁ t₂ hsz htag
    rw [noEntityTagA, Bool.and_eq_true] at htag
    rw [sizeA] at hsz
    rw [arrEntries, arrEntries]
    cases he : entryVal (natStr i) v t₁ with
    | some w =>
      rw [entryVal_stable m hIH (natStr i) v w t₁ t₂ (by omega) htag.1 he]
      rw [ih (i + 1) t₁ t₂ (by omega) htag.2]
    | none =>
      rw [entryVal_null]
      rw [ih (i + 1) t₁ t₂ (by omega) htag.2]

theorem arrPrefix_trim : ∀ l, arrPrefix (trimTrailingNulls l) l := by
  intro l
  induction l using arrSpineInduction with
  | hnil => exact trivial
  | hcons v rest ih =>
    rw [trimTrailingNulls]
    cases ht : trimTrailingNulls rest with
    | nil =>
      by_cases hn : isNullV v = true
      · simp [hn, arrPrefix]
      · rw [Bool.not_eq_true] at hn
        simp [hn, arrPrefix]
    | cons x xs =>
      rw [ht] at ih
      exact ⟨rfl, ih⟩

theorem arrEntries_prefix_stable :
    ∀ pre ll i t₂, arrPrefix pre ll → arrEntries i ll t₂ = ll →
      arrEntries i pre t₂ = pre := by
  intro pre
  induction pre using arrSpineInduction with
  | hnil => intro ll i t₂ _ _; rfl
  | hcons x p ih =>
    intro ll i t₂ hpre heq
    cases ll with
    | nil => exact absurd hpre (by simp [arrPrefix])
    | cons y l' =>
      obtain ⟨rfl, hpre'⟩ := hpre
      rw [arrEntries] at heq
      have h1 : (match entryVal (natStr i) x t₂ with | some w => w | none => JsValue.null) = x := by
        injection heq
      have h2 : arrEntries (i + 1) l' t₂ = l' := by injection heq
      rw [arrEntries, h1, ih l' (i + 1) t₂ hpre' h2]

theorem trim_trim : ∀ l, trimTrailingNulls (trimTrailingNulls l) = trimTrailingNulls l := by
  intro l
  induction l using arrSpineInduction with
  | hnil => rfl
  | hcons v rest ih =>
    rw [trimTrailingNulls]
    cases ht : trimTrailingNulls rest with
    | nil =>
      by_cases hn : isNullV v = true
      · simp [hn, trimTrailingNulls]
      · rw [Bool.not_eq_true] at hn
        simp [hn, trimTrailingNulls]
    | cons x xs =>
      rw [ht] at ih
      show trimTrailingNulls (.cons v (.cons x xs)) = .cons v (.cons x xs)
      rw [trimTrailingNulls, ih]

theorem opt_idem_all : ∀ n v, sizeV v ≤ n →
    ((noEntityTagV v = true → ∀ t₁ t₂,
        deepOptimizeStructure (deepOptimizeStructure v t₁) t₂ = deepOptimizeStructure v t₁) ∧
     (noEntityTagV v = true →
        optimizeItemStructure (optimizeItemStructure v) = optimizeItemStructure v)) := by
  intro n
  induction n with
  | zero =>
    intro v hv
    exact absurd hv (by have := sizeV_pos v; omega)
  | succ n ih =>
    intro v hv
    have hIH : StableHyp n := fun u hu => ih u hu
    cases v with
    | null => exact ⟨fun _ _ _ => rfl, fun _ => rfl⟩
    | bool b => exact ⟨fun _ _ _ => rfl, fun _ => rfl⟩
    | num i => exact ⟨fun _ _ _ => rfl, fun _ => rfl⟩
    | str s => exact ⟨fun _ _ _ => rfl, fun _ => rfl⟩
    | arr l =>
      have hszl : sizeA l ≤ n := by rw [sizeV] at hv; omega
      have hA : noEntityTagV (.arr l) = true → ∀ t₁ t₂,
          deepOptimizeStructure (deepOptimizeStructure (.arr l) t₁) t₂ =
            deepOptimizeStructure (.arr l) t₁ := by
        intro htag t₁ t₂
        have htagl : noEntityTagA l = true := htag
        have hstab := arrEntries_out_stable n hIH l 0 t₁ t₂ hszl htagl
        have h2 := arrEntries_prefix_stable (trimTrailingNulls (arrEntries 0 l t₁))
          (arrEntries 0 l t₁) 0 t₂ (arrPrefix_trim _) hstab
        show JsValue.arr (trimTrailingNulls
            (arrEntries 0 (trimTrailingNulls (arrEntries 0 l t₁)) t₂)) =
          .arr (trimTrailingNulls (arrEntries 0 l t₁))
        rw [h2, trim_trim]
      exact ⟨hA, fun htag => hA htag 0 0⟩
    | obj fs =>
      have hszo : sizeO fs ≤ n := by rw [sizeV] at hv; omega
      have hA : noEntityTagV (.obj fs) = true → ∀ t₁ t₂,
          deepOptimizeStructure (deepOptimizeStructure (.obj fs) t₁) t₂ =
            deepOptimizeStructure (.obj fs) t₁ := by
        intro htag t₁ t₂
        rw [noEntityTagV, Bool.and_eq_true] at htag
        show JsValue.obj (objEntries (objEntries fs t₁) t₂) = .obj (objEntries fs t₁)
        rw [objEntries_stable n hIH fs hszo htag.2 t₁ t₂]
      refine ⟨hA, fun htag => ?_⟩
      have htag' := htag
      rw [noEntityTagV, Bool.and_eq_true] at htag'
      have hPA : entityTagged (.obj fs) = false := by
        rw [← Bool.not_eq_true']
        exact htag'.1
      rw [entityTagged, Bool.or_eq_false_iff] at hPA
      have h1 : optimizeItemStructure (.obj fs) = .obj (objEntries fs 0) := by
        rw [optimizeItemStructure]
        rw [hPA.1, hPA.2]
        rfl
      rw [h1]
      have hP2 : typenameIs (.obj (objEntries fs 0)) "Post" = false := by
        rw [typenameIs]
        rw [show jsGet (JsValue.obj (objEntries fs 0)) "__typename" =
          (objEntries fs 0).lookup "__typename" from rfl]
        rw [objEntries_no_typename]
      have hA2 : typenameIs (.obj (objEntries fs 0)) "Account" = false := by
        rw [typenameIs]
        rw [show jsGet (JsValue.obj (objEntries fs 0)) "__typename" =
          (objEntries fs 0).lookup "__typename" from rfl]
        rw [objEntries_no_typename]
      have h2 : optimizeItemStructure (.obj (objEntries fs 0)) =
          .obj (objEntries (objEntries fs 0) 0) := by
        rw [optimizeItemStructure]
        rw [hP2, hA2]
        rfl
      rw [h2]
      exact hA htag 0 0

/-- C3 (amended): the Structure Optimizer is idempotent on every input
containing no `__typename`-tagged `Post`/`Account` object; on tagged
entities idempotence fails because the entity reduction inserts a `type`
field (and flattens cross-references) that the second pass's generic
pruner removes — see `C3_idempotence_counterexample`. -/
theorem C3_idempotence_amended (x : JsValue) (B : Nat) (htag : noEntityTagV x = true) :
    optimizeDataForTokens (optimizeDataForTokens x B) B = optimizeDataForTokens x B := by
  have hdeep : deepOptimizeStructure (deepOptimizeStructure x B) B =
      deepOptimizeStructure x B := (opt_idem_all (sizeV x) x le_rfl).1 htag B B
  have hsplit : ∀ y, optimizeDataForTokens y B = y ∨
      optimizeDataForTokens y B = deepOptimizeStructure y B := by
    intro y
    cases hy : jsTruthy y with
    | false => exact Or.inl (by simp [optimizeDataForTokens, hy])
    | true =>
      by_cases hf : roughSizeOf y < B * 4
      · exact Or.inl (by simp [optimizeDataForTokens, hy, hf])
      · exact Or.inr (by simp [optimizeDataForTokens, hy, hf])
  rcases hsplit x with h1 | h1
  · rw [h1]
    exact h1
  · rw [h1]
    rcases hsplit (deepOptimizeStructure x B) with h2 | h2
    · exact h2
    · rw [h2]
      exact hdeep

/-- Witness for C3 at a small untagged object and budget 0. -/
theorem C3_idempotence_amended_witness :
    noEntityTagV (jobj [("a", .str "hello")]) = true ∧
    optimizeDataForTokens (optimizeDataForTokens (jobj [("a", .str "hello")]) 0) 0 =
      optimizeDataForTokens (jobj [("a", .str "hello")]) 0 :=
  ⟨by decide, C3_idempotence_amended (jobj [("a", .str "hello")]) 0 (by decide)⟩

end LensMcp
